import Mathlib

/-!
Verification development for the starknet-grpc-codegen tool.

The Rust sources are shallowly embedded as Lean definitions:

* `spec.rs`            → the `Schema`/`Specification` data model below;
* `proto_gen/writer.rs`→ the naming helpers `to_proto_name` / `to_proto_type_name`
                         and the comment formatter;
* `proto_gen/types.rs` → the protobuf IR and the `TypeResolver` conversions
                         (namespace `Types`);
* `proto_gen/service.rs`→ the `ServiceGenerator` functions (namespace `Service`);
* `main.rs`            → the fragment-aggregation loop of `RawSpecs::parse_full`.

Modelling conventions: Rust `String`s are Lean `String`s (character-level
functions work on `String.data`, i.e. `List Char`); Rust `char` case
conversions (`to_uppercase`/`to_lowercase`, ASCII as exercised by this tool)
are `Char.toUpper`/`Char.toLower`; `IndexMap` is an insertion-ordered
association list `List (String × _)`; `u32`/`usize` are `Nat`; fallible Rust
functions returning `anyhow::Result` are `Except String` where they can
actually fail and total functions where every path returns `Ok`.
-/

namespace Codegen

/-- Stand-in for `serde_json::Value` (external library type): the embedded
code never inspects these values, it only compares them for equality. -/
abbrev JsonValue := String

/-- `spec.rs` `Reference` (`$ref` plus ignored sibling keys). -/
structure Reference where
  title : Option String
  comment : Option String
  description : Option String
  ref_field : String
  additional_fields : List (String × JsonValue)
  deriving DecidableEq, Repr

/-- `spec.rs` `BooleanPrimitive`. -/
structure BooleanPrimitive where
  title : Option String
  description : Option String
  deriving DecidableEq, Repr

/-- `spec.rs` `IntegerPrimitive` (`minimum: Option<i32>`). -/
structure IntegerPrimitive where
  title : Option String
  description : Option String
  minimum : Option Int
  not : Option JsonValue
  deriving DecidableEq, Repr

/-- `spec.rs` `StringPrimitive` (`r#enum` is the JSON-schema enum list). -/
structure StringPrimitive where
  title : Option String
  comment : Option String
  description : Option String
  enum : Option (List String)
  pattern : Option String
  deriving DecidableEq, Repr

/- `spec.rs` `Schema`/`Primitive` and the schema-containing record types.
Lean 4.14 does not allow `structure` inside `mutual`, so `OneOf`, `AllOf`,
`ArrayPrimitive` and `ObjectPrimitive` are single-constructor inductives whose
constructor arguments are exactly the Rust struct fields (accessors follow). -/
mutual

inductive Schema where
  | ref (reference : Reference)
  | oneOf (o : OneOf)
  | allOf (a : AllOf)
  | primitive (p : Primitive)

inductive Primitive where
  | array (a : ArrayPrimitive)
  | boolean (b : BooleanPrimitive)
  | integer (i : IntegerPrimitive)
  | object (o : ObjectPrimitive)
  | string (s : StringPrimitive)

inductive OneOf where
  | mk (title : Option String) (description : Option String) (one_of : List Schema)

inductive AllOf where
  | mk (title : Option String) (description : Option String) (all_of : List Schema)
      (additional_properties : Option Bool)

inductive ArrayPrimitive where
  | mk (title : Option String) (description : Option String) (items : Schema)

inductive ObjectPrimitive where
  | mk (title : Option String) (description : Option String) (summary : Option String)
      (properties : List (String × Schema)) (required : List String)
      (additional_properties : Option Bool) (not : Option JsonValue)

end

def OneOf.title : OneOf → Option String
  | .mk t _ _ => t

def OneOf.description : OneOf → Option String
  | .mk _ d _ => d

def OneOf.one_of : OneOf → List Schema
  | .mk _ _ l => l

def AllOf.title : AllOf → Option String
  | .mk t _ _ _ => t

def AllOf.description : AllOf → Option String
  | .mk _ d _ _ => d

def AllOf.all_of : AllOf → List Schema
  | .mk _ _ l _ => l

def ArrayPrimitive.title : ArrayPrimitive → Option String
  | .mk t _ _ => t

def ArrayPrimitive.description : ArrayPrimitive → Option String
  | .mk _ d _ => d

def ArrayPrimitive.items : ArrayPrimitive → Schema
  | .mk _ _ i => i

def ObjectPrimitive.title : ObjectPrimitive → Option String
  | .mk t _ _ _ _ _ _ => t

def ObjectPrimitive.description : ObjectPrimitive → Option String
  | .mk _ d _ _ _ _ _ => d

def ObjectPrimitive.summary : ObjectPrimitive → Option String
  | .mk _ _ s _ _ _ _ => s

def ObjectPrimitive.properties : ObjectPrimitive → List (String × Schema)
  | .mk _ _ _ p _ _ _ => p

def ObjectPrimitive.required : ObjectPrimitive → List String
  | .mk _ _ _ _ r _ _ => r

/-- `spec.rs` `Primitive::description()`. -/
def Primitive.description : Primitive → Option String
  | .string s => s.description
  | .integer i => i.description
  | .boolean b => b.description
  | .array a => a.description
  | .object o => o.description

/-- `spec.rs` `Schema::description()`. -/
def Schema.description : Schema → Option String
  | .primitive p => p.description
  | .ref r => r.description
  | .oneOf o => o.description
  | .allOf a => a.description

/-- `spec.rs` `Reference::name()`: the trailing segment of `ref_field` after
the last `/` (the whole string when there is no `/`).  Implemented by a fold
over the characters, which computes exactly the suffix after the last slash. -/
def Reference.name (r : Reference) : String :=
  ⟨r.ref_field.data.foldl (fun acc c => if c = '/' then [] else acc ++ [c]) []⟩

/-- `spec.rs` `Param`. -/
structure Param where
  name : String
  description : Option String
  summary : Option String
  required : Bool
  schema : Schema

/-- `spec.rs` `MethodResult`. -/
structure MethodResult where
  name : String
  description : Option String
  required : Option Bool
  schema : Schema
  summary : Option String

/-- `spec.rs` `Method`. -/
structure Method where
  name : String
  summary : String
  description : Option String
  param_structure : Option String
  params : List Param
  result : Option MethodResult
  errors : Option (List Reference)

/-- `spec.rs` `Error` (an error object in `components.errors`). -/
structure ErrorObject where
  code : Nat
  message : String
  data : Option Schema

/-- `spec.rs` `ErrorType` (untagged union of an error object and a reference). -/
inductive ErrorType where
  | error (e : ErrorObject)
  | reference (r : Reference)

/-- `spec.rs` `Info` (the `license: Empty` field carries no data). -/
structure Info where
  version : String
  title : String

/-- `spec.rs` `Components` (`content_descriptors: Empty` carries no data;
`IndexMap`s are insertion-ordered association lists). -/
structure Components where
  schemas : List (String × Schema)
  errors : List (String × ErrorType)

/-- `spec.rs` `Specification`. -/
structure Specification where
  openrpc : String
  info : Info
  servers : List String
  methods : List Method
  components : Components

/-! ### Naming helpers (`proto_gen/writer.rs`) -/

/-- Character loop of `writer.rs` `to_proto_name`: camelCase → snake_case.
The state `prevLower` is the Rust `prev_char_was_lowercase` flag. -/
def to_proto_name_chars : List Char → Bool → List Char
  | [], _ => []
  | c :: rest, prevLower =>
    (if c.isUpper && prevLower then ['_', c.toLower] else [c.toLower]) ++
      to_proto_name_chars rest c.isLower

/-- `writer.rs` `to_proto_name`, including the `type`/`ref` reserved-word
special cases. -/
def to_proto_name (json_name : String) : String :=
  let result : String := ⟨to_proto_name_chars json_name.data false⟩
  if result = "type" then "type_"
  else if result = "ref" then "ref_"
  else result

/-- Split a character list on a separator (Rust `str::split`): always returns
at least one (possibly empty) word, and words never contain the separator. -/
def split_on_char (sep : Char) : List Char → List (List Char)
  | [] => [[]]
  | c :: cs =>
    match split_on_char sep cs with
    | [] => [[]]
    | w :: ws => if c = sep then [] :: w :: ws else (c :: w) :: ws

/-- Capitalize one word: first character upper-cased, the rest lower-cased
(the per-word body of `writer.rs` `to_proto_type_name` and of
`service.rs` `snake_to_pascal_case`). -/
def capitalize_word : List Char → List Char
  | [] => []
  | c :: rest => c.toUpper :: rest.map Char.toLower

/-- `writer.rs` `to_proto_type_name`: split on `_`, capitalize each part,
concatenate (PascalCase). -/
def to_proto_type_name (json_name : String) : String :=
  ⟨((split_on_char '_' json_name.data).map capitalize_word).flatten⟩

/-- ASCII whitespace (the characters Rust `str::trim` removes on the
comments this tool handles). -/
def is_ws_char (c : Char) : Bool :=
  c == ' ' || c == '\t' || c == '\n' || c == '\r'

/-- Rust `str::trim`, character level. -/
def trim_chars (l : List Char) : List Char :=
  ((l.dropWhile is_ws_char).reverse.dropWhile is_ws_char).reverse

/-- Rust `str::lines`, character level: split on `\n`, dropping the final
empty segment produced by a trailing newline. -/
def rust_lines (l : List Char) : List (List Char) :=
  if l = [] then []
  else
    let parts := split_on_char '\n' l
    if parts.getLast? = some [] then parts.dropLast else parts

/-- Join lines with `\n` (Rust `Vec::join("\n")`). -/
def join_with_newline : List (List Char) → List Char
  | [] => []
  | [w] => w
  | w :: ws => w ++ '\n' :: join_with_newline ws

/-- `writer.rs` `format_comment`: each line trimmed, prefixed with
`indent` spaces and `// `, re-joined with newlines. -/
def format_comment (text : String) (indent : Nat) : String :=
  ⟨join_with_newline ((rust_lines text.data).map fun line =>
      List.replicate indent ' ' ++ ('/' :: '/' :: ' ' :: trim_chars line))⟩

/-! ### Protobuf IR (`proto_gen/types.rs`)

The dead fields `nested_messages`, `nested_enums` (always `vec![]`, marked
`#[allow(dead_code)]` in the source and never read) and `options`
(always `vec![]`) are omitted from `ProtoMessage`. -/

inductive ProtoFieldType where
  | string
  | int32
  | int64
  | uint32
  | uint64
  | bool
  | bytes
  | double
  | float
  | message (name : String)
  | enum (name : String)
  | any
  deriving DecidableEq, Repr

structure ProtoField where
  name : String
  field_type : ProtoFieldType
  number : Nat
  json_name : Option String
  comment : Option String
  optional : Bool
  repeated : Bool
  oneof_name : Option String
  deriving DecidableEq, Repr

structure ProtoOneof where
  name : String
  fields : List ProtoField
  comment : Option String
  deriving DecidableEq, Repr

structure ProtoMessage where
  name : String
  fields : List ProtoField
  oneofs : List ProtoOneof
  comment : Option String
  deriving DecidableEq, Repr

structure ProtoEnumValue where
  name : String
  number : Int
  comment : Option String
  deriving DecidableEq, Repr

structure ProtoEnum where
  name : String
  values : List ProtoEnumValue
  comment : Option String
  deriving DecidableEq, Repr

structure ProtoRpc where
  name : String
  request_type : String
  response_type : String
  comment : Option String
  client_streaming : Bool
  server_streaming : Bool
  deriving DecidableEq, Repr

structure ProtoService where
  name : String
  rpcs : List ProtoRpc
  comment : Option String
  deriving DecidableEq, Repr

/-! ### Type resolver (`proto_gen/types.rs`, namespace `Types`)

Every `anyhow::Result` in this file is `Ok` on all paths, so the embedded
functions are total. -/

namespace Types

/-- `types.rs` `schema_to_proto_field_type_impl` (the free helper at the
bottom of the file, used by `TypeResolver`): note that `Ref` is mapped to an
unqualified message named by `to_proto_type_name`, with no alias table. -/
def schema_to_proto_field_type_impl : Schema → ProtoFieldType
  | .primitive (.string _) => .string
  | .primitive (.integer _) => .int64
  | .primitive (.boolean _) => .bool
  | .primitive (.array (.mk _ _ items)) => schema_to_proto_field_type_impl items
  | .primitive (.object _) => .message "Object"
  | .ref reference => .message (to_proto_type_name reference.name)
  | .oneOf _ => .any
  | .allOf _ => .message "AllOf"

/-- The field built for one `(field_name, field_schema)` property by
`TypeResolver::convert_object_to_message`. -/
def object_property_field (field_name : String) (field_schema : Schema)
    (required : List String) (number : Nat) : ProtoField :=
  { name := to_proto_name field_name
    field_type := schema_to_proto_field_type_impl field_schema
    number := number
    json_name := some field_name
    comment := field_schema.description
    optional := !(required.contains field_name)
    repeated := false
    oneof_name := none }

/-- The field-building loop of `convert_object_to_message`: one field per
property, `field_number` threading through starting from `number`. -/
def object_fields (required : List String) :
    List (String × Schema) → Nat → List ProtoField
  | [], _ => []
  | (field_name, field_schema) :: rest, number =>
    object_property_field field_name field_schema required number ::
      object_fields required rest (number + 1)

/-- `types.rs` `TypeResolver::convert_object_to_message`. -/
def convert_object_to_message (name : String) (obj : ObjectPrimitive) : ProtoMessage :=
  { name := name
    fields := object_fields obj.required obj.properties 1
    oneofs := []
    comment := obj.description }

/-- The variant-field loop of `convert_oneof_to_message`: each variant `i`
(0-based) becomes a field `variant_{i+1}` inside the oneof group `value`. -/
def oneof_variant_fields : List Schema → Nat → List ProtoField
  | [], _ => []
  | variant_schema :: rest, number =>
    { name := "variant_" ++ toString number
      field_type := schema_to_proto_field_type_impl variant_schema
      number := number
      json_name := none
      comment := variant_schema.description
      optional := false
      repeated := false
      oneof_name := some "value" } :: oneof_variant_fields rest (number + 1)

/-- `types.rs` `TypeResolver::convert_oneof_to_message`: the variant fields
are stored both as the message's `fields` and inside the single `value`
oneof group. -/
def convert_oneof_to_message (name : String) (oneof : OneOf) : ProtoMessage :=
  let oneof_fields := oneof_variant_fields oneof.one_of 1
  { name := name
    fields := oneof_fields
    oneofs := [{ name := "value", fields := oneof_fields, comment := none }]
    comment := oneof.description }

/-- The flattening loop of `convert_allof_to_message`: object parts
contribute their properties field-by-field, `Ref` parts contribute a single
message-typed field, all other part shapes are skipped. -/
def allof_fields : List Schema → Nat → List ProtoField
  | [], _ => []
  | .primitive (.object obj) :: rest, number =>
    Types.object_fields obj.required obj.properties number ++
      allof_fields rest (number + obj.properties.length)
  | .ref reference :: rest, number =>
    { name := to_proto_name reference.name
      field_type := .message (to_proto_type_name reference.name)
      number := number
      json_name := none
      comment := reference.description
      optional := false
      repeated := false
      oneof_name := none } :: allof_fields rest (number + 1)
  | _ :: rest, number => allof_fields rest number

/-- `types.rs` `TypeResolver::convert_allof_to_message`. -/
def convert_allof_to_message (name : String) (allof : AllOf) : ProtoMessage :=
  { name := name
    fields := allof_fields allof.all_of 1
    oneofs := []
    comment := allof.description }

/-- `types.rs` `TypeResolver::convert_string_enum_to_enum`: one value per
listed string numbered `0..N-1`, names upper-cased with `-` replaced by `_`. -/
def convert_string_enum_to_enum (name : String) (values : List String)
    (description : Option String) : ProtoEnum :=
  { name := name
    values := values.enum.map fun (i, value) =>
      { name := ⟨value.data.map fun c => if c = '-' then '_' else c.toUpper⟩
        number := (i : Int)
        comment := none }
    comment := description }

/-- `types.rs` `TypeResolver::convert_primitive_to_wrapper` (a one-field
`value` wrapper message, used for primitives with no dedicated rule). -/
def convert_primitive_to_wrapper (name : String) (schema : Schema) : ProtoMessage :=
  { name := name
    fields := [{ name := "value"
                 field_type := schema_to_proto_field_type_impl schema
                 number := 1
                 json_name := none
                 comment := schema.description
                 optional := false
                 repeated := false
                 oneof_name := none }]
    oneofs := []
    comment := schema.description }

end Types

/-- Association-list lookup (the model of `HashMap`/`IndexMap` `get`). -/
def lookupEntry {α : Type} : List (String × α) → String → Option α
  | [], _ => none
  | (k0, v) :: rest, k => if k0 = k then some v else lookupEntry rest k

/-- Association-list insert with `HashMap::insert` semantics: replace the
value when the key is present, otherwise append. -/
def insertEntry {α : Type} : List (String × α) → String → α → List (String × α)
  | [], k, v => [(k, v)]
  | (k0, v0) :: rest, k, v =>
    if k0 = k then (k0, v) :: rest else (k0, v0) :: insertEntry rest k v

/-- The two private maps of `TypeResolver` that feed the output
(`resolved_types`, `resolved_enums`).  They are `std::collections::HashMap`s
in the source: contents are modelled as association lists; their (random,
per-instance) iteration order is modelled separately — see `resolve_types`. -/
structure ResolverState where
  resolved_types : List (String × ProtoMessage)
  resolved_enums : List (String × ProtoEnum)

/-- `types.rs` `TypeResolution` (the `type_map` field of the source is a
`HashMap`; it is kept here as an association list). -/
structure TypeResolution where
  common_types : List ProtoMessage
  common_enums : List ProtoEnum
  main_types : List ProtoMessage
  write_types : List ProtoMessage
  trace_types : List ProtoMessage
  ws_types : List ProtoMessage
  type_map : List (String × String)
  deriving DecidableEq, Repr

namespace Types

/-- `types.rs` `TypeResolver::resolve_schema_type`: dispatch one named schema
entry into the resolver's maps (`Ref` entries produce nothing). -/
def resolve_schema_type (st : ResolverState) (name : String) (schema : Schema) :
    ResolverState :=
  let proto_name := to_proto_type_name name
  match schema with
  | .primitive (.object obj) =>
    { st with resolved_types :=
        insertEntry st.resolved_types name (convert_object_to_message proto_name obj) }
  | .primitive (.string str_primitive) =>
    match str_primitive.enum with
    | some enum_values =>
      let proto_enum :=
        convert_string_enum_to_enum proto_name enum_values str_primitive.description
      { st with resolved_enums := insertEntry st.resolved_enums name proto_enum }
    | none =>
      let wrapper : ProtoMessage :=
        { name := proto_name
          fields := [{ name := "value"
                       field_type := .string
                       number := 1
                       json_name := none
                       comment := str_primitive.description
                       optional := false
                       repeated := false
                       oneof_name := none }]
          oneofs := []
          comment := str_primitive.description }
      { st with resolved_types := insertEntry st.resolved_types name wrapper }
  | .oneOf oneof =>
    { st with resolved_types :=
        insertEntry st.resolved_types name (convert_oneof_to_message proto_name oneof) }
  | .allOf allof =>
    { st with resolved_types :=
        insertEntry st.resolved_types name (convert_allof_to_message proto_name allof) }
  | .ref _ => st
  | _ =>
    { st with resolved_types :=
        insertEntry st.resolved_types name (convert_primitive_to_wrapper proto_name schema) }

/-- `types.rs` `TypeResolver::resolve_types`.

The first source pass (`register_type_name`) only fills the unused
`type_dependencies` map and is omitted.  `organize_types_by_service` collects
`resolved_types.values()` / `resolved_enums.values()` by iterating the two
`std::collections::HashMap`s: that iteration order is unspecified in Rust
(per-instance `RandomState`), so it is passed in explicitly here as
`type_order` / `enum_order` (each run of the program corresponds to some pair
of orders that enumerate the resolved keys). -/
def resolve_types (specs : Specification) (type_order enum_order : List String) :
    TypeResolution :=
  let st := specs.components.schemas.foldl
    (fun st entry => resolve_schema_type st entry.1 entry.2) ⟨[], []⟩
  { common_types := type_order.filterMap (lookupEntry st.resolved_types)
    common_enums := enum_order.filterMap (lookupEntry st.resolved_enums)
    main_types := []
    write_types := []
    trace_types := []
    ws_types := []
    type_map :=
      (type_order.filter fun k => (lookupEntry st.resolved_types k).isSome).map
        (fun k => (k, to_proto_type_name k)) ++
      (enum_order.filter fun k => (lookupEntry st.resolved_enums k).isSome).map
        (fun k => (k, to_proto_type_name k)) }

end Types

/-! ### Service generator (`proto_gen/service.rs`, namespace `Service`) -/

namespace Service

/-- `service.rs` `schema_to_proto_field_type_impl` (the service generator's
own copy of the helper): unlike the `types.rs` copy it special-cases string
enums and applies the fixed reference alias table, qualifying message names
with the literal `starknet.v0_8_1.common.` package prefix. -/
def schema_to_proto_field_type_impl : Schema → ProtoFieldType
  | .primitive (.string str_prim) =>
    if str_prim.enum.isSome then .enum "String" else .string
  | .primitive (.integer _) => .int64
  | .primitive (.boolean _) => .bool
  | .primitive (.array (.mk _ _ items)) => schema_to_proto_field_type_impl items
  | .primitive (.object _) => .message "starknet.v0_8_1.common.Object"
  | .ref reference =>
    let ref_name := reference.name
    if ref_name = "FELT" ∨ ref_name = "TXN_HASH" ∨ ref_name = "BLOCK_HASH" ∨
        ref_name = "ADDRESS" ∨ ref_name = "CLASS_HASH" ∨ ref_name = "STORAGE_KEY" ∨
        ref_name = "HASH_256" then .string
    else if ref_name = "BLOCK_NUMBER" ∨ ref_name = "NUM_AS_HEX" ∨
        ref_name = "L1_TXN_HASH" then .uint64
    else if ref_name = "u64" then .uint64
    else if ref_name = "u128" then .string
    else if ref_name = "ETH_ADDRESS" then .string
    else if ref_name = "Object" then .message "starknet.v0_8_1.common.Object"
    else if ref_name = "NestedCall" ∨ ref_name = "NESTED_CALL" then
      .message "starknet.v0_8_1.common.FunctionInvocation"
    else if ref_name = "BroadcastedInvokeTxn" ∨ ref_name = "BROADCASTED_INVOKE_TXN" ∨
        ref_name = "BROADCASTED_INVOKE_TXN_V3" then
      .message "starknet.v0_8_1.common.InvokeTxnV3Content"
    else if ref_name = "BroadcastedDeclareTxn" ∨ ref_name = "BROADCASTED_DECLARE_TXN" ∨
        ref_name = "BROADCASTED_DECLARE_TXN_V3" then
      .message "starknet.v0_8_1.common.DeclareTxnV3Content"
    else if ref_name = "BroadcastedDeployAccountTxn" ∨
        ref_name = "BROADCASTED_DEPLOY_ACCOUNT_TXN" ∨
        ref_name = "BROADCASTED_DEPLOY_ACCOUNT_TXN_V3" then
      .message "starknet.v0_8_1.common.DeployAccountTxnV3Content"
    else .message ("starknet.v0_8_1.common." ++ to_proto_type_name ref_name)
  | .oneOf _ => .message "starknet.v0_8_1.common.Object"
  | .allOf _ => .message "starknet.v0_8_1.common.AllOf"

/-- `service.rs` `ServiceGenerator::snake_to_pascal_case`, character level. -/
def snake_to_pascal_chars (l : List Char) : List Char :=
  ((split_on_char '_' l).map capitalize_word).flatten

/-- `service.rs` `ServiceGenerator::method_name_to_rpc_name`, character
level: strip a leading `starknet_`, then PascalCase the remainder — via
`snake_to_pascal_case` when it still contains `_`, otherwise by upper-casing
the first character (camelCase input). -/
def method_name_to_rpc_name_chars (method_name : List Char) : List Char :=
  let name_without_ns :=
    if ("starknet_".data).isPrefixOf method_name then method_name.drop 9
    else method_name
  if name_without_ns.contains '_' then snake_to_pascal_chars name_without_ns
  else
    match name_without_ns with
    | [] => []
    | first :: rest => first.toUpper :: rest

/-- `service.rs` `ServiceGenerator::method_name_to_rpc_name`. -/
def method_name_to_rpc_name (method_name : String) : String :=
  ⟨method_name_to_rpc_name_chars method_name.data⟩

/-- Rust `str::contains` (substring test). -/
def contains_substr (s pat : String) : Bool :=
  decide (pat.data <:+: s.data)

/-- `service.rs` `ServiceGenerator::determine_streaming_type`:
`(client_streaming, server_streaming)`. -/
def determine_streaming_type (method : Method) : Bool × Bool :=
  (contains_substr method.name "batch" || contains_substr method.name "multi" ||
     decide (method.params.length > 5),
   contains_substr method.name "subscribe" || contains_substr method.name "stream" ||
     contains_substr method.name "events" || contains_substr method.name "logs")

/-- The parameter-field loop of `generate_request_message`. -/
def request_param_fields : List Param → Nat → List ProtoField
  | [], _ => []
  | param :: rest, number =>
    { name := to_proto_name param.name
      field_type := schema_to_proto_field_type_impl param.schema
      number := number
      json_name := some param.name
      comment := param.description
      optional := !param.required
      repeated := false
      oneof_name := none } :: request_param_fields rest (number + 1)

/-- `service.rs` `ServiceGenerator::generate_request_message`. -/
def generate_request_message (rpc_name : String) (method : Method) : ProtoMessage :=
  { name := rpc_name ++ "Request"
    fields := request_param_fields method.params 1
    oneofs := []
    comment := some ("Request message for " ++ method.name) }

/-- `service.rs` `ServiceGenerator::generate_response_message`: an optional
`result` field (only when the method declares a result) followed by the
always-present optional `error` field. -/
def generate_response_message (rpc_name : String) (method : Method) : ProtoMessage :=
  let result_fields : List ProtoField :=
    match method.result with
    | some result =>
      [{ name := "result"
         field_type := schema_to_proto_field_type_impl result.schema
         number := 1
         json_name := some "result"
         comment := result.description
         optional := false
         repeated := false
         oneof_name := none }]
    | none => []
  { name := rpc_name ++ "Response"
    fields := result_fields ++
      [{ name := "error"
         field_type := .message "Error"
         number := 2
         json_name := some "error"
         comment := some "Error information if the request failed"
         optional := true
         repeated := false
         oneof_name := none }]
    oneofs := []
    comment := some ("Response message for " ++ method.name) }

/-- `service.rs` `ServiceGenerator::generate_error_message`: the shared
`Error` message. -/
def generate_error_message : ProtoMessage :=
  { name := "Error"
    fields :=
      [{ name := "code", field_type := .int32, number := 1, json_name := some "code"
         comment := some "Error code", optional := false, repeated := false
         oneof_name := none },
       { name := "message", field_type := .string, number := 2
         json_name := some "message", comment := some "Error message"
         optional := false, repeated := false, oneof_name := none },
       { name := "data", field_type := .string, number := 3, json_name := some "data"
         comment := some "Additional error data as JSON string", optional := true
         repeated := false, oneof_name := none }]
    oneofs := []
    comment := some "Standard error message for failed requests" }

/-- `service.rs` `ServiceGenerator::convert_method_to_rpc`. -/
def convert_method_to_rpc (method : Method) : ProtoRpc :=
  let rpc_name := method_name_to_rpc_name method.name
  let streaming := determine_streaming_type method
  { name := rpc_name
    request_type := rpc_name ++ "Request"
    response_type := rpc_name ++ "Response"
    comment := method.description.orElse fun _ => some method.summary
    client_streaming := streaming.1
    server_streaming := streaming.2 }

end Service

/-! ### Structural schema equality (`#[derive(PartialEq)]` on `spec.rs` `Schema`)

Rust compares every field structurally; `Reference.additional_fields`
(`HashMap<String, Value>`) is compared here as its association list. -/

mutual

def schemaBeq : Schema → Schema → Bool
  | .ref r1, .ref r2 => r1 == r2
  | .oneOf (.mk t1 d1 l1), .oneOf (.mk t2 d2 l2) =>
    t1 == t2 && d1 == d2 && schemaListBeq l1 l2
  | .allOf (.mk t1 d1 l1 ap1), .allOf (.mk t2 d2 l2 ap2) =>
    t1 == t2 && d1 == d2 && schemaListBeq l1 l2 && ap1 == ap2
  | .primitive p1, .primitive p2 => primitiveBeq p1 p2
  | _, _ => false

def primitiveBeq : Primitive → Primitive → Bool
  | .array (.mk t1 d1 i1), .array (.mk t2 d2 i2) =>
    t1 == t2 && d1 == d2 && schemaBeq i1 i2
  | .boolean b1, .boolean b2 => b1 == b2
  | .integer i1, .integer i2 => i1 == i2
  | .object (.mk t1 d1 s1 p1 r1 a1 n1), .object (.mk t2 d2 s2 p2 r2 a2 n2) =>
    t1 == t2 && d1 == d2 && s1 == s2 && schemaPropsBeq p1 p2 && r1 == r2 &&
      a1 == a2 && n1 == n2
  | .string s1, .string s2 => s1 == s2
  | _, _ => false

def schemaListBeq : List Schema → List Schema → Bool
  | [], [] => true
  | s1 :: t1, s2 :: t2 => schemaBeq s1 s2 && schemaListBeq t1 t2
  | _, _ => false

def schemaPropsBeq : List (String × Schema) → List (String × Schema) → Bool
  | [], [] => true
  | (k1, v1) :: t1, (k2, v2) :: t2 => k1 == k2 && schemaBeq v1 v2 && schemaPropsBeq t1 t2
  | _, _ => false

end

/-- Is this schema a `Ref`?  (The discriminant tested by the merge loop.) -/
def Schema.isRef : Schema → Bool
  | .ref _ => true
  | _ => false

/-! ### Fragment aggregation (`main.rs` `RawSpecs::parse_full`) -/

/-- The conflict error built by `anyhow::bail!` in the schema-merge loop. -/
def conflict_message (key : String) : String :=
  "duplicate entries must be ref or identical: " ++ key

/-- One iteration of the schema-merge loop of `parse_full`: `value` is the
secondary fragment's entry.  Occupied + `Ref` incoming → keep silently;
occupied + non-`Ref` incoming → error unless structurally equal; vacant →
insert (at the end, `IndexMap::insert` order). -/
def merge_step (acc : List (String × Schema)) (key : String) (value : Schema) :
    Except String (List (String × Schema)) :=
  match lookupEntry acc key with
  | some existing =>
    match value with
    | .ref _ => .ok acc
    | _ =>
      if schemaBeq value existing then .ok acc
      else .error (conflict_message key)
  | none => .ok (acc ++ [(key, value)])

/-- The schema-merge loop of `parse_full` over one secondary fragment. -/
def merge_schemas_into (acc : List (String × Schema)) :
    List (String × Schema) → Except String (List (String × Schema))
  | [] => .ok acc
  | (key, value) :: rest => do
    let acc' ← merge_step acc key value
    merge_schemas_into acc' rest

/-- The error-merge loop of `parse_full`: first-writer-wins. -/
def merge_errors_into (acc : List (String × ErrorType)) :
    List (String × ErrorType) → List (String × ErrorType)
  | [] => acc
  | (key, value) :: rest =>
    match lookupEntry acc key with
    | some _ => merge_errors_into acc rest
    | none => merge_errors_into (acc ++ [(key, value)]) rest

/-- One iteration of the outer fragment loop of `parse_full`: append the
secondary fragment's methods, merge its schemas (fallible), merge its
errors. -/
def merge_fragment (specs : Specification) (additional : Specification) :
    Except String Specification := do
  let schemas ← merge_schemas_into specs.components.schemas
    additional.components.schemas
  .ok { specs with
        methods := specs.methods ++ additional.methods
        components :=
          { schemas := schemas
            errors := merge_errors_into specs.components.errors
                        additional.components.errors } }

/-- The whole aggregation of `parse_full` over the secondary fragments
(write, trace, ws in the source; the ws fragment, when absent, is an empty
mock specification).  Fail-fast: the first conflict aborts everything. -/
def parse_full_merge (primary : Specification) :
    List Specification → Except String Specification
  | [] => .ok primary
  | additional :: rest => do
    let merged ← merge_fragment primary additional
    parse_full_merge merged rest

/-! ### Rendering (`impl fmt::Display` in `proto_gen/types.rs`)

Each `writeln!` of the source is one element of the rendered line list. -/

/-- `impl fmt::Display for ProtoFieldType`. -/
def ProtoFieldType.render : ProtoFieldType → String
  | .string => "string"
  | .int32 => "int32"
  | .int64 => "int64"
  | .uint32 => "uint32"
  | .uint64 => "uint64"
  | .bool => "bool"
  | .bytes => "bytes"
  | .double => "double"
  | .float => "float"
  | .message name => name
  | .enum name => name
  | .any => "google.protobuf.Any"

/-- One field line inside a `oneof` block (indent 4, no
`repeated`/`optional` qualifier), preceded by its comment line if any. -/
def render_oneof_field_lines (field : ProtoField) : List String :=
  (match field.comment with
   | some comment => [format_comment comment 4]
   | none => []) ++
  ["    " ++ field.field_type.render ++ " " ++ field.name ++ " = " ++
     toString field.number ++
     (match field.json_name with
      | some json_name => " [json_name = \"" ++ json_name ++ "\"]"
      | none => "") ++ ";"]

/-- One `oneof` block of the `ProtoMessage` display. -/
def render_oneof_lines (oneof : ProtoOneof) : List String :=
  ["  oneof " ++ oneof.name ++ " \x7b"] ++
    oneof.fields.flatMap render_oneof_field_lines ++
  ["  \x7d"]

/-- One regular field of the `ProtoMessage` display: fields belonging to a
`oneof` group are skipped (they were already written inside the block). -/
def render_regular_field_lines (field : ProtoField) : List String :=
  if field.oneof_name.isSome then []
  else
    (match field.comment with
     | some comment => [format_comment comment 2]
     | none => []) ++
    ["  " ++
       (if field.repeated then "repeated "
        else if field.optional then "optional " else "") ++
       field.field_type.render ++ " " ++ field.name ++ " = " ++
       toString field.number ++
       (match field.json_name with
        | some json_name => " [json_name = \"" ++ json_name ++ "\"]"
        | none => "") ++ ";"]

/-- `impl fmt::Display for ProtoMessage`, as the list of written lines. -/
def render_message_lines (message : ProtoMessage) : List String :=
  (match message.comment with
   | some comment => [format_comment comment 0]
   | none => []) ++
  ["message " ++ message.name ++ " \x7b"] ++
  message.oneofs.flatMap render_oneof_lines ++
  message.fields.flatMap render_regular_field_lines ++
  ["\x7d"]

/-! ## Theorems -/

/-- The field list built by `convert_object_to_message` has one field per
property. -/
theorem object_fields_length (required : List String) :
    ∀ (props : List (String × Schema)) (n : Nat),
      (Types.object_fields required props n).length = props.length := by
  intro props
  induction props with
  | nil => intro n; rfl
  | cons head tail ih =>
    intro n
    obtain ⟨field_name, field_schema⟩ := head
    simp [Types.object_fields, ih]

/-- Pointwise description of the field list built by
`convert_object_to_message`: the `i`-th field is built from the `i`-th
property with field number `n + i`. -/
theorem object_fields_get (required : List String) :
    ∀ (props : List (String × Schema)) (n i : Nat)
      (hf : i < (Types.object_fields required props n).length)
      (hp : i < props.length),
      (Types.object_fields required props n).get ⟨i, hf⟩ =
        Types.object_property_field (props.get ⟨i, hp⟩).1 (props.get ⟨i, hp⟩).2
          required (n + i) := by
  intro props
  induction props with
  | nil => intro n i hf hp; exact absurd hp (by simp)
  | cons head tail ih =>
    intro n i hf hp
    obtain ⟨field_name, field_schema⟩ := head
    cases i with
    | zero => simp [Types.object_fields]
    | succ j =>
      have hp' : j < tail.length := by
        simp only [List.length_cons] at hp
        omega
      have hf' : j < (Types.object_fields required tail (n + 1)).length := by
        rw [object_fields_length]
        exact hp'
      have := ih (n + 1) j hf' hp'
      simp only [Types.object_fields, List.get_cons_succ]
      rw [this]
      congr 1
      omega

/-- C1: for every `Object` schema, `convert_object_to_message` produces
exactly one field per property, in property-declaration order; the `i`-th
(0-based) field carries number `i + 1` (the 1-based property index), its
`json_name` is the original JSON property name, its proto name is the
`to_proto_name` (camelCase → snake_case) conversion of that name, and it is
`optional` exactly when the property name is absent from the object's
`required` set. -/
theorem convert_object_one_field_per_property (name : String) (obj : ObjectPrimitive) :
    (Types.convert_object_to_message name obj).fields.length =
      obj.properties.length ∧
    ∀ i (hf : i < (Types.convert_object_to_message name obj).fields.length)
      (hp : i < obj.properties.length),
      ((Types.convert_object_to_message name obj).fields.get ⟨i, hf⟩).number = i + 1 ∧
      ((Types.convert_object_to_message name obj).fields.get ⟨i, hf⟩).json_name =
        some (obj.properties.get ⟨i, hp⟩).1 ∧
      ((Types.convert_object_to_message name obj).fields.get ⟨i, hf⟩).name =
        to_proto_name (obj.properties.get ⟨i, hp⟩).1 ∧
      (((Types.convert_object_to_message name obj).fields.get ⟨i, hf⟩).optional = true ↔
        (obj.properties.get ⟨i, hp⟩).1 ∉ obj.required) := by
  constructor
  · exact object_fields_length obj.required obj.properties 1
  · intro i hf hp
    have hget := object_fields_get obj.required obj.properties 1 i hf hp
    simp only [Types.convert_object_to_message] at hf ⊢
    rw [hget]
    refine ⟨by simp [Types.object_property_field]; omega, rfl, rfl, ?_⟩
    simp [Types.object_property_field]

/-- Witness for C1 at a concrete two-property object (`blockNumber`
required, `parentHash` not required). -/
theorem convert_object_one_field_per_property_witness :
    ((Types.convert_object_to_message "Block"
        (.mk none none none
          [("blockNumber", .primitive (.integer ⟨none, none, none, none⟩)),
           ("parentHash", .primitive (.string ⟨none, none, none, none, none⟩))]
          ["blockNumber"] none none)).fields.get ⟨1, by decide⟩).number = 1 + 1 ∧
    ((Types.convert_object_to_message "Block"
        (.mk none none none
          [("blockNumber", .primitive (.integer ⟨none, none, none, none⟩)),
           ("parentHash", .primitive (.string ⟨none, none, none, none, none⟩))]
          ["blockNumber"] none none)).fields.get ⟨1, by decide⟩).json_name =
      some "parentHash" ∧
    ((Types.convert_object_to_message "Block"
        (.mk none none none
          [("blockNumber", .primitive (.integer ⟨none, none, none, none⟩)),
           ("parentHash", .primitive (.string ⟨none, none, none, none, none⟩))]
          ["blockNumber"] none none)).fields.get ⟨1, by decide⟩).name =
      to_proto_name "parentHash" ∧
    (((Types.convert_object_to_message "Block"
        (.mk none none none
          [("blockNumber", .primitive (.integer ⟨none, none, none, none⟩)),
           ("parentHash", .primitive (.string ⟨none, none, none, none, none⟩))]
          ["blockNumber"] none none)).fields.get ⟨1, by decide⟩).optional = true ↔
      "parentHash" ∉ ["blockNumber"]) :=
  (convert_object_one_field_per_property "Block"
      (.mk none none none
        [("blockNumber", .primitive (.integer ⟨none, none, none, none⟩)),
         ("parentHash", .primitive (.string ⟨none, none, none, none, none⟩))]
        ["blockNumber"] none none)).2 1 (by decide) (by decide)

/-! ### Aggregation lemmas (C2, C3) -/

theorem merge_step_occupied_ref (acc : List (String × Schema)) (key : String)
    (r : Reference) (e0 : Schema) (hl : lookupEntry acc key = some e0) :
    merge_step acc key (.ref r) = .ok acc := by
  simp [merge_step, hl]

theorem merge_step_occupied_nonref (acc : List (String × Schema)) (key : String)
    (v e0 : Schema) (hl : lookupEntry acc key = some e0) (hv : v.isRef = false) :
    merge_step acc key v =
      if schemaBeq v e0 then .ok acc else .error (conflict_message key) := by
  cases v <;> simp_all [merge_step, Schema.isRef]

theorem merge_step_vacant (acc : List (String × Schema)) (key : String) (v : Schema)
    (hl : lookupEntry acc key = none) :
    merge_step acc key v = .ok (acc ++ [(key, v)]) := by
  simp [merge_step, hl]

theorem lookupEntry_append_singleton {α : Type} (l : List (String × α)) (k0 : String)
    (v0 : α) (k : String) :
    lookupEntry (l ++ [(k0, v0)]) k =
      match lookupEntry l k with
      | some w => some w
      | none => if k0 = k then some v0 else none := by
  induction l with
  | nil => simp [lookupEntry]
  | cons head tail ih =>
    obtain ⟨k1, v1⟩ := head
    by_cases h : k1 = k <;> simp [lookupEntry, h, ih]

/-- C2 counterexample: the accumulator holds a `Ref` under key `A`, the
secondary fragment holds a structurally different non-`Ref` schema under the
same key — the merge loop fails instead of keeping the entry silently. -/
theorem merge_existing_ref_not_kept_silently :
    Schema.isRef (Schema.ref ⟨none, none, none, "#/components/schemas/FELT", []⟩) = true ∧
    merge_schemas_into
        [("A", Schema.ref ⟨none, none, none, "#/components/schemas/FELT", []⟩)]
        [("A", Schema.primitive (.string ⟨none, none, none, none, none⟩))] =
      .error (conflict_message "A") := by
  refine ⟨rfl, ?_⟩
  simp [merge_schemas_into, merge_step, lookupEntry, schemaBeq, primitiveBeq,
    Bind.bind, Except.bind]

/-- C2 (amended): during aggregation, a duplicate entry is kept silently
(accumulator unchanged, no error, loop continues) whenever the *secondary
fragment's* value for the duplicated name is a `Ref`, regardless of what the
existing accumulator entry is. -/
theorem merge_incoming_ref_kept_silently (acc : List (String × Schema)) (key : String)
    (r : Reference) (rest : List (String × Schema))
    (hocc : lookupEntry acc key ≠ none) :
    merge_schemas_into acc ((key, Schema.ref r) :: rest) = merge_schemas_into acc rest := by
  obtain ⟨e0, he0⟩ := Option.ne_none_iff_exists'.mp hocc
  simp [merge_schemas_into, merge_step_occupied_ref acc key r e0 he0,
    Bind.bind, Except.bind]

/-- Witness for the amended C2: the existing entry is a non-`Ref` boolean
schema, the incoming duplicate is a `Ref`, and the step is a silent no-op. -/
theorem merge_incoming_ref_kept_silently_witness :
    merge_schemas_into [("A", Schema.primitive (.boolean ⟨none, none⟩))]
        [("A", Schema.ref ⟨none, none, none, "#/x/FELT", []⟩)] =
      merge_schemas_into [("A", Schema.primitive (.boolean ⟨none, none⟩))] [] :=
  merge_incoming_ref_kept_silently
    [("A", Schema.primitive (.boolean ⟨none, none⟩))] "A"
    ⟨none, none, none, "#/x/FELT", []⟩ [] (by simp [lookupEntry])

/-- A key on which `secondary` irreconcilably conflicts with the
accumulated table: the secondary value is not a `Ref` and differs
structurally from the accumulated value. -/
def conflicting_key (table secondary : List (String × Schema)) (key : String) : Prop :=
  ∃ value existing, (key, value) ∈ secondary ∧ value.isRef = false ∧
    lookupEntry table key = some existing ∧ schemaBeq value existing = false

/-- Fail-fast conflict detection of the schema-merge loop, generalized over
the accumulator.  `primary` is the table the accumulator started from; the
two invariants say that primary entries survive in the accumulator unchanged
and that every accumulator key either comes from `primary` or is no longer
among the un-processed secondary keys. -/
theorem merge_schemas_into_conflict :
    ∀ (secondary acc primary : List (String × Schema)),
      (∀ k w, lookupEntry primary k = some w → lookupEntry acc k = some w) →
      (∀ k, (lookupEntry acc k).isSome →
        (lookupEntry primary k).isSome ∨ k ∉ secondary.map Prod.fst) →
      (secondary.map Prod.fst).Nodup →
      ∀ key value existing,
        (key, value) ∈ secondary → value.isRef = false →
        lookupEntry primary key = some existing → schemaBeq value existing = false →
      ∃ key2, conflicting_key primary secondary key2 ∧
        merge_schemas_into acc secondary = .error (conflict_message key2) := by
  intro secondary
  induction secondary with
  | nil =>
    intro acc primary _ _ _ key value existing hmem
    exact absurd hmem (by simp)
  | cons head rest ih =>
    intro acc primary hinv1 hinv2 hnd key value existing hmem href hlook hne
    obtain ⟨k0, v0⟩ := head
    cases hl : lookupEntry acc k0 with
    | none =>
      -- vacant: the head key is fresh, insert and recurse on the tail
      have hhead_not : ¬(key = k0 ∧ value = v0) := by
        rintro ⟨rfl, rfl⟩
        have := hinv1 key existing hlook
        rw [hl] at this
        exact Option.noConfusion this
      have hmem' : (key, value) ∈ rest := by
        rcases List.mem_cons.mp hmem with heq | h
        · exact absurd (by injection heq with h1 h2; exact ⟨h1, h2⟩) hhead_not
        · exact h
      have hstep := merge_step_vacant acc k0 v0 hl
      have hrec := ih (acc ++ [(k0, v0)]) primary
        (by
          intro k w hk
          rw [lookupEntry_append_singleton]
          have := hinv1 k w hk
          simp [this])
        (by
          intro k hk
          rw [lookupEntry_append_singleton] at hk
          cases hacc : lookupEntry acc k with
          | some w =>
            rcases hinv2 k (by simp [hacc]) with h | h
            · exact Or.inl h
            · exact Or.inr fun hmem2 => h (by simp [hmem2])
          | none =>
            rw [hacc] at hk
            simp only at hk
            split at hk
            · next heq =>
              subst heq
              right
              have := hnd
              simp only [List.map_cons, List.nodup_cons] at this
              exact this.1
            · simp at hk)
        (by
          have := hnd
          simp only [List.map_cons, List.nodup_cons] at this
          exact this.2)
        key value existing hmem' href hlook hne
      obtain ⟨key2, hconf, heq⟩ := hrec
      refine ⟨key2, ?_, ?_⟩
      · obtain ⟨v2, e2, hm2, hr2, hl2, hb2⟩ := hconf
        exact ⟨v2, e2, List.mem_cons_of_mem _ hm2, hr2, hl2, hb2⟩
      · simp only [merge_schemas_into, hstep]
        exact heq
    | some e0 =>
      cases hv0 : v0.isRef with
      | true =>
        -- incoming Ref: kept silently, head cannot be the conflicting entry
        have hhead_not : ¬(key = k0 ∧ value = v0) := by
          rintro ⟨rfl, rfl⟩
          rw [href] at hv0
          exact Bool.noConfusion hv0
        have hmem' : (key, value) ∈ rest := by
          rcases List.mem_cons.mp hmem with heq | h
          · exact absurd (by injection heq with h1 h2; exact ⟨h1, h2⟩) hhead_not
          · exact h
        obtain ⟨r, hr⟩ : ∃ r, v0 = Schema.ref r := by
          cases v0 with
          | ref r => exact ⟨r, rfl⟩
          | oneOf o => simp [Schema.isRef] at hv0
          | allOf a => simp [Schema.isRef] at hv0
          | primitive p => simp [Schema.isRef] at hv0
        have hstep := merge_step_occupied_ref acc k0 r e0 hl
        have hrec := ih acc primary hinv1
          (by
            intro k hk
            rcases hinv2 k hk with h | h
            · exact Or.inl h
            · exact Or.inr fun hmem2 => h (by simp [hmem2]))
          (by
            have := hnd
            simp only [List.map_cons, List.nodup_cons] at this
            exact this.2)
          key value existing hmem' href hlook hne
        obtain ⟨key2, hconf, heq⟩ := hrec
        refine ⟨key2, ?_, ?_⟩
        · obtain ⟨v2, e2, hm2, hr2, hl2, hb2⟩ := hconf
          exact ⟨v2, e2, List.mem_cons_of_mem _ hm2, hr2, hl2, hb2⟩
        · rw [hr]
          simp only [merge_schemas_into, hstep]
          exact heq
      | false =>
        have hstep := merge_step_occupied_nonref acc k0 v0 e0 hl hv0
        -- the head key is occupied, hence (invariant 2) present in primary
        have hprim : (lookupEntry primary k0).isSome := by
          rcases hinv2 k0 (by simp [hl]) with h | h
          · exact h
          · exact absurd (by simp) h
        obtain ⟨w0, hw0⟩ := Option.isSome_iff_exists.mp hprim
        have he0w0 : e0 = w0 := by
          have := hinv1 k0 w0 hw0
          rw [hl] at this
          injection this
        cases hbeq : schemaBeq v0 e0 with
        | false =>
          -- fail-fast: the loop errors here, naming the head key
          refine ⟨k0, ⟨v0, w0, List.mem_cons_self _ _, hv0, hw0, he0w0 ▸ hbeq⟩, ?_⟩
          rw [hbeq] at hstep
          simp only [merge_schemas_into, hstep, if_false]
          rfl
        | true =>
          -- structurally equal duplicate: no-op, head cannot be the conflict
          have hhead_not : ¬(key = k0 ∧ value = v0) := by
            rintro ⟨rfl, rfl⟩
            have : existing = e0 := by
              have := hinv1 key existing hlook
              rw [hl] at this
              exact (Option.some.injEq _ _ ▸ this).symm
            rw [this, hbeq] at hne
            exact Bool.noConfusion hne
          have hmem' : (key, value) ∈ rest := by
            rcases List.mem_cons.mp hmem with heq | h
            · exact absurd (by injection heq with h1 h2; exact ⟨h1, h2⟩) hhead_not
            · exact h
          have hrec := ih acc primary hinv1
            (by
              intro k hk
              rcases hinv2 k hk with h | h
              · exact Or.inl h
              · exact Or.inr fun hmem2 => h (by simp [hmem2]))
            (by
              have := hnd
              simp only [List.map_cons, List.nodup_cons] at this
              exact this.2)
            key value existing hmem' href hlook hne
          obtain ⟨key2, hconf, heq⟩ := hrec
          refine ⟨key2, ?_, ?_⟩
          · obtain ⟨v2, e2, hm2, hr2, hl2, hb2⟩ := hconf
            exact ⟨v2, e2, List.mem_cons_of_mem _ hm2, hr2, hl2, hb2⟩
          · rw [hbeq] at hstep
            simp only [merge_schemas_into, hstep, if_true]
            exact heq

/-- C3: if a secondary fragment defines, under a key also present in the
accumulated specification, a structurally different non-`Ref` schema, then
the aggregation of that fragment fails fast with the conflict error naming a
(genuinely conflicting) schema key — the earliest one in fragment order —
and no merged `Specification` is produced (the result is `Except.error`). -/
theorem merge_fragment_conflict_fails (primary secondary : Specification)
    (key : String) (value existing : Schema)
    (hnd : (secondary.components.schemas.map Prod.fst).Nodup)
    (hmem : (key, value) ∈ secondary.components.schemas)
    (href : value.isRef = false)
    (hlook : lookupEntry primary.components.schemas key = some existing)
    (hne : schemaBeq value existing = false) :
    ∃ key2,
      conflicting_key primary.components.schemas secondary.components.schemas key2 ∧
      merge_fragment primary secondary = .error (conflict_message key2) ∧
      ∀ merged, merge_fragment primary secondary ≠ .ok merged := by
  obtain ⟨key2, hconf, heq⟩ :=
    merge_schemas_into_conflict secondary.components.schemas
      primary.components.schemas primary.components.schemas
      (fun _ _ h => h) (fun k hk => Or.inl hk) hnd key value existing hmem href hlook hne
  refine ⟨key2, hconf, ?_, ?_⟩
  · simp only [merge_fragment, heq]
    rfl
  · intro merged hok
    simp only [merge_fragment, heq] at hok
    exact Except.noConfusion hok

/-- Witness for C3 at a concrete pair of one-schema fragments that disagree
(non-`Ref` vs non-`Ref`) on key `A`. -/
theorem merge_fragment_conflict_fails_witness :
    ∃ key2,
      conflicting_key [("A", Schema.primitive (.boolean ⟨none, none⟩))]
        [("A", Schema.primitive (.string ⟨none, none, none, none, none⟩))] key2 ∧
      merge_fragment
          ⟨"1.0", ⟨"v", "t"⟩, [], [],
            ⟨[("A", Schema.primitive (.boolean ⟨none, none⟩))], []⟩⟩
          ⟨"1.0", ⟨"v", "t"⟩, [], [],
            ⟨[("A", Schema.primitive (.string ⟨none, none, none, none, none⟩))], []⟩⟩ =
        .error (conflict_message key2) ∧
      ∀ merged,
        merge_fragment
            ⟨"1.0", ⟨"v", "t"⟩, [], [],
              ⟨[("A", Schema.primitive (.boolean ⟨none, none⟩))], []⟩⟩
            ⟨"1.0", ⟨"v", "t"⟩, [], [],
              ⟨[("A", Schema.primitive (.string ⟨none, none, none, none, none⟩))], []⟩⟩ ≠
          .ok merged :=
  merge_fragment_conflict_fails
    ⟨"1.0", ⟨"v", "t"⟩, [], [], ⟨[("A", Schema.primitive (.boolean ⟨none, none⟩))], []⟩⟩
    ⟨"1.0", ⟨"v", "t"⟩, [], [],
      ⟨[("A", Schema.primitive (.string ⟨none, none, none, none, none⟩))], []⟩⟩
    "A" (Schema.primitive (.string ⟨none, none, none, none, none⟩))
    (Schema.primitive (.boolean ⟨none, none⟩))
    (by simp) (by simp) rfl (by simp [lookupEntry]) (by simp [schemaBeq, primitiveBeq])

/-! ### Field-type resolution (C4, C5) -/

/-- C4: evaluation of the type-resolver code at the failing input.  The field
schema `Array{items: String}` resolves to the mapped type of its items
(`string`), but the produced field has `repeated = false`: no code path ever
sets the `repeated` flag, although the source comments at `types.rs`
(`// For arrays, we need to mark the field as repeated`) and `service.rs`
(`// Return the inner type - the repeated flag will be set separately`)
document the intent that it be set on the containing field. -/
theorem array_field_repeated_flag_never_set :
    Types.schema_to_proto_field_type_impl
        (.primitive (.array (.mk none none
          (.primitive (.string ⟨none, none, none, none, none⟩))))) = .string ∧
    (Types.convert_object_to_message "Block"
        (.mk none none none
          [("transactions", .primitive (.array (.mk none none
            (.primitive (.string ⟨none, none, none, none, none⟩)))))]
          ["transactions"] none none)).fields =
      [{ name := "transactions", field_type := .string, number := 1,
         json_name := some "transactions", comment := none, optional := false,
         repeated := false, oneof_name := none }] := by
  constructor
  · simp [Types.schema_to_proto_field_type_impl]
  · simp [Types.convert_object_to_message, Types.object_fields,
      Types.object_property_field, Types.schema_to_proto_field_type_impl,
      to_proto_name, to_proto_name_chars, Schema.description, Primitive.description,
      ArrayPrimitive.description, ObjectPrimitive.properties, ObjectPrimitive.required,
      ObjectPrimitive.description]

/-- The names special-cased by the reference alias table of
`service.rs` `schema_to_proto_field_type_impl` that map to proto `string`. -/
def string_alias_names : List String :=
  ["FELT", "TXN_HASH", "BLOCK_HASH", "ADDRESS", "CLASS_HASH", "STORAGE_KEY",
   "HASH_256", "u128", "ETH_ADDRESS"]

/-- The names special-cased by the alias table that map to proto `uint64`. -/
def uint64_alias_names : List String :=
  ["BLOCK_NUMBER", "NUM_AS_HEX", "L1_TXN_HASH", "u64"]

/-- Every name special-cased by the alias table of the service generator. -/
def alias_table_names : List String :=
  string_alias_names ++ uint64_alias_names ++
  ["Object", "NestedCall", "NESTED_CALL",
   "BroadcastedInvokeTxn", "BROADCASTED_INVOKE_TXN", "BROADCASTED_INVOKE_TXN_V3",
   "BroadcastedDeclareTxn", "BROADCASTED_DECLARE_TXN", "BROADCASTED_DECLARE_TXN_V3",
   "BroadcastedDeployAccountTxn", "BROADCASTED_DEPLOY_ACCOUNT_TXN",
   "BROADCASTED_DEPLOY_ACCOUNT_TXN_V3"]

/-- C5 counterexample: on a `FELT` reference the service generator's
resolution yields proto `string`, but the type resolver's own resolution
(`types.rs`) yields the message type `Felt` — the alias table is *not*
applied in the type resolver, so the claim that the mapping is applied
wherever `Ref` fields are resolved fails. -/
theorem types_ref_resolution_ignores_alias_table :
    Service.schema_to_proto_field_type_impl
        (.ref ⟨none, none, none, "#/components/schemas/FELT", []⟩) = .string ∧
    Types.schema_to_proto_field_type_impl
        (.ref ⟨none, none, none, "#/components/schemas/FELT", []⟩) = .message "Felt" ∧
    ProtoFieldType.message "Felt" ≠ .string := by
  refine ⟨by decide, ?_, by decide⟩
  simp [Types.schema_to_proto_field_type_impl]
  decide

/-- C5 (amended): the fixed alias table is applied only in the service
generator's `Ref` resolution — `FELT`, `TXN_HASH`, `BLOCK_HASH`, `ADDRESS`,
`CLASS_HASH`, `STORAGE_KEY`, `HASH_256`, `u128` and `ETH_ADDRESS` map to
proto `string`; `BLOCK_NUMBER`, `NUM_AS_HEX`, `L1_TXN_HASH` and `u64` map to
proto `uint64`; identifiers outside the table map to a message named by the
PascalCase conversion qualified with the literal common package prefix
`starknet.v0_8_1.common.`.  The type resolver's `Ref` resolution instead
maps every identifier, aliased or not, to an unqualified message named by the
PascalCase conversion. -/
theorem ref_alias_table_amended (r : Reference) :
    Types.schema_to_proto_field_type_impl (.ref r) =
      .message (to_proto_type_name r.name) ∧
    (r.name ∈ string_alias_names →
      Service.schema_to_proto_field_type_impl (.ref r) = .string) ∧
    (r.name ∈ uint64_alias_names →
      Service.schema_to_proto_field_type_impl (.ref r) = .uint64) ∧
    (r.name ∉ alias_table_names →
      Service.schema_to_proto_field_type_impl (.ref r) =
        .message ("starknet.v0_8_1.common." ++ to_proto_type_name r.name)) := by
  refine ⟨by simp [Types.schema_to_proto_field_type_impl], ?_, ?_, ?_⟩
  · intro h
    simp only [string_alias_names, List.mem_cons, List.mem_singleton,
      List.not_mem_nil, or_false] at h
    rcases h with h | h | h | h | h | h | h | h | h <;>
      simp [Service.schema_to_proto_field_type_impl, h]
  · intro h
    simp only [uint64_alias_names, List.mem_cons, List.mem_singleton,
      List.not_mem_nil, or_false] at h
    rcases h with h | h | h | h <;>
      simp [Service.schema_to_proto_field_type_impl, h]
  · intro h
    simp only [alias_table_names, string_alias_names, uint64_alias_names,
      List.append_assoc, List.cons_append, List.nil_append, List.mem_cons,
      List.not_mem_nil, or_false, not_or] at h
    obtain ⟨h1, h2, h3, h4, h5, h6, h7, h8, h9, h10, h11, h12, h13, h14, h15,
      h16, h17, h18, h19, h20, h21, h22, h23, h24, h25⟩ := h
    simp [Service.schema_to_proto_field_type_impl,
      h1, h2, h3, h4, h5, h6, h7, h8, h9, h10, h11, h12, h13, h14, h15,
      h16, h17, h18, h19, h20, h21, h22, h23, h24, h25]

/-- Witness for the amended C5 at three concrete references: an aliased
string name, an aliased uint64 name, and an identifier outside the table. -/
theorem ref_alias_table_amended_witness :
    Service.schema_to_proto_field_type_impl
        (.ref ⟨none, none, none, "#/components/schemas/TXN_HASH", []⟩) = .string ∧
    Service.schema_to_proto_field_type_impl
        (.ref ⟨none, none, none, "#/components/schemas/BLOCK_NUMBER", []⟩) = .uint64 ∧
    Service.schema_to_proto_field_type_impl
        (.ref ⟨none, none, none, "#/components/schemas/EVENT_FILTER", []⟩) =
      .message ("starknet.v0_8_1.common." ++
        to_proto_type_name
          (Reference.name ⟨none, none, none, "#/components/schemas/EVENT_FILTER", []⟩)) :=
  ⟨(ref_alias_table_amended
      ⟨none, none, none, "#/components/schemas/TXN_HASH", []⟩).2.1 (by decide),
   (ref_alias_table_amended
      ⟨none, none, none, "#/components/schemas/BLOCK_NUMBER", []⟩).2.2.1 (by decide),
   (ref_alias_table_amended
      ⟨none, none, none, "#/components/schemas/EVENT_FILTER", []⟩).2.2.2 (by decide)⟩

/-! ### Streaming classification (C6) -/

/-- C6: a method is classified client-streaming exactly when its name
contains `batch` or `multi` or it declares more than five parameters, and
server-streaming exactly when its name contains `subscribe`, `stream`,
`events` or `logs`; in particular any method with seven parameters is
client-streaming regardless of its name. -/
theorem determine_streaming_type_spec (m : Method) :
    ((Service.determine_streaming_type m).1 = true ↔
      ("batch".data <:+: m.name.data ∨ "multi".data <:+: m.name.data ∨
        5 < m.params.length)) ∧
    ((Service.determine_streaming_type m).2 = true ↔
      ("subscribe".data <:+: m.name.data ∨ "stream".data <:+: m.name.data ∨
        "events".data <:+: m.name.data ∨ "logs".data <:+: m.name.data)) ∧
    (m.params.length = 7 → (Service.determine_streaming_type m).1 = true) := by
  refine ⟨?_, ?_, ?_⟩
  · simp only [Service.determine_streaming_type, Service.contains_substr,
      Bool.or_eq_true, decide_eq_true_eq]
    tauto
  · simp only [Service.determine_streaming_type, Service.contains_substr,
      Bool.or_eq_true, decide_eq_true_eq]
    tauto
  · intro h
    simp [Service.determine_streaming_type, h]

/-- Witness for C6: a method with seven parameters and a name matching no
streaming keyword is client-streaming. -/
theorem determine_streaming_type_spec_witness :
    (Service.determine_streaming_type
      { name := "starknet_getStateUpdate", summary := "", description := none
        param_structure := none
        params :=
          [{ name := "p1", description := none, summary := none, required := true,
             schema := .primitive (.boolean ⟨none, none⟩) },
           { name := "p2", description := none, summary := none, required := true,
             schema := .primitive (.boolean ⟨none, none⟩) },
           { name := "p3", description := none, summary := none, required := true,
             schema := .primitive (.boolean ⟨none, none⟩) },
           { name := "p4", description := none, summary := none, required := true,
             schema := .primitive (.boolean ⟨none, none⟩) },
           { name := "p5", description := none, summary := none, required := true,
             schema := .primitive (.boolean ⟨none, none⟩) },
           { name := "p6", description := none, summary := none, required := true,
             schema := .primitive (.boolean ⟨none, none⟩) },
           { name := "p7", description := none, summary := none, required := true,
             schema := .primitive (.boolean ⟨none, none⟩) }]
        result := none, errors := none }).1 = true :=
  (determine_streaming_type_spec _).2.2 rfl

/-! ### Response-message synthesis (C7) -/

/-- C7: the synthesized response message carries a `result` field with
number 1 typed by the method's declared result schema exactly when the
method declares a result, and always carries an optional `error` field with
number 2 whose type is the shared `Error` message, which itself consists of
`code: int32` (required), `message: string` (required) and an optional
`data: string`. -/
theorem generate_response_message_spec (rpc_name : String) (m : Method) :
    (∀ r, m.result = some r →
      (Service.generate_response_message rpc_name m).fields =
        [{ name := "result",
           field_type := Service.schema_to_proto_field_type_impl r.schema,
           number := 1, json_name := some "result", comment := r.description,
           optional := false, repeated := false, oneof_name := none },
         { name := "error", field_type := .message "Error", number := 2,
           json_name := some "error",
           comment := some "Error information if the request failed",
           optional := true, repeated := false, oneof_name := none }]) ∧
    (m.result = none →
      (Service.generate_response_message rpc_name m).fields =
        [{ name := "error", field_type := .message "Error", number := 2,
           json_name := some "error",
           comment := some "Error information if the request failed",
           optional := true, repeated := false, oneof_name := none }]) ∧
    Service.generate_error_message.name = "Error" ∧
    Service.generate_error_message.fields.map
        (fun f => (f.name, f.field_type, f.number, f.optional)) =
      [("code", .int32, 1, false), ("message", .string, 2, false),
       ("data", .string, 3, true)] := by
  refine ⟨?_, ?_, rfl, by decide⟩
  · intro r h
    simp [Service.generate_response_message, h]
  · intro h
    simp [Service.generate_response_message, h]

/-- Witness for C7 at a concrete method that declares a boolean result. -/
theorem generate_response_message_spec_witness :
    (Service.generate_response_message "GetBlock"
      { name := "starknet_getBlock", summary := "", description := none
        param_structure := none, params := []
        result := some { name := "result", description := none, required := none,
                         schema := .primitive (.boolean ⟨none, none⟩), summary := none }
        errors := none }).fields =
      [{ name := "result",
         field_type := Service.schema_to_proto_field_type_impl
           (.primitive (.boolean ⟨none, none⟩)),
         number := 1, json_name := some "result", comment := none,
         optional := false, repeated := false, oneof_name := none },
       { name := "error", field_type := .message "Error", number := 2,
         json_name := some "error",
         comment := some "Error information if the request failed",
         optional := true, repeated := false, oneof_name := none }] :=
  (generate_response_message_spec "GetBlock" _).1
    { name := "result", description := none, required := none,
      schema := .primitive (.boolean ⟨none, none⟩), summary := none } rfl

/-! ### Oneof rendering (C10) -/

theorem oneof_variant_fields_length :
    ∀ (variants : List Schema) (n : Nat),
      (Types.oneof_variant_fields variants n).length = variants.length := by
  intro variants
  induction variants with
  | nil => intro n; rfl
  | cons head tail ih => intro n; simp [Types.oneof_variant_fields, ih]

theorem oneof_variant_fields_oneof_name :
    ∀ (variants : List Schema) (n : Nat) (f : ProtoField),
      f ∈ Types.oneof_variant_fields variants n → f.oneof_name = some "value" := by
  intro variants
  induction variants with
  | nil => intro n f hf; exact absurd hf (by simp [Types.oneof_variant_fields])
  | cons head tail ih =>
    intro n f hf
    rcases List.mem_cons.mp hf with heq | h
    · rw [heq]
    · exact ih (n + 1) f h

/-- Regular-field rendering skips every field that belongs to a `oneof`
group, so a field list marked entirely as oneof members renders nothing in
the regular-field section. -/
theorem render_regular_skips_oneof_fields :
    ∀ (fields : List ProtoField),
      (∀ f ∈ fields, f.oneof_name.isSome) →
      fields.flatMap render_regular_field_lines = [] := by
  intro fields
  induction fields with
  | nil => intro _; rfl
  | cons head tail ih =>
    intro h
    have hhead : head.oneof_name.isSome := h head (List.mem_cons_self _ _)
    simp only [List.flatMap_cons]
    rw [render_regular_field_lines, if_pos hhead, List.nil_append]
    exact ih fun f hf => h f (List.mem_cons_of_mem _ hf)

/-- C10: every message produced from a `OneOf` schema stores each variant
field twice — once in the message's top-level field list and once inside its
single `value` oneof group — yet the rendered proto text contains each
variant declaration exactly once: the oneof block renders one declaration per
variant and the regular-field loop contributes nothing, because it skips
every field whose oneof group name is set (and every variant field carries
`oneof_name = some "value"`). -/
theorem convert_oneof_renders_each_variant_once (name : String) (oneof : OneOf) :
    (Types.convert_oneof_to_message name oneof).oneofs =
      [{ name := "value", fields := (Types.convert_oneof_to_message name oneof).fields,
         comment := none }] ∧
    (Types.convert_oneof_to_message name oneof).fields.length =
      oneof.one_of.length ∧
    (∀ f ∈ (Types.convert_oneof_to_message name oneof).fields,
      f.oneof_name = some "value") ∧
    render_message_lines (Types.convert_oneof_to_message name oneof) =
      (match oneof.description with
       | some comment => [format_comment comment 0]
       | none => []) ++
      ["message " ++ name ++ " \x7b"] ++
      (["  oneof value \x7b"] ++
        (Types.convert_oneof_to_message name oneof).fields.flatMap
          render_oneof_field_lines ++
       ["  \x7d"]) ++
      ["\x7d"] := by
  refine ⟨rfl, oneof_variant_fields_length oneof.one_of 1, ?_, ?_⟩
  · intro f hf
    exact oneof_variant_fields_oneof_name oneof.one_of 1 f hf
  · have hskip : (Types.convert_oneof_to_message name oneof).fields.flatMap
        render_regular_field_lines = [] := by
      apply render_regular_skips_oneof_fields
      intro f hf
      rw [oneof_variant_fields_oneof_name oneof.one_of 1 f hf]
      rfl
    simp only [render_message_lines, Types.convert_oneof_to_message] at hskip ⊢
    rw [hskip]
    simp [render_oneof_lines]

/-- Witness for C10: the single variant field of a concrete one-variant
`OneOf` message carries `oneof_name = some "value"` (the mark that makes the
regular-field loop skip it). -/
theorem convert_oneof_renders_each_variant_once_witness :
    ((Types.convert_oneof_to_message "U"
        (.mk none none [.primitive (.boolean ⟨none, none⟩)])).fields.get
      ⟨0, by decide⟩).oneof_name = some "value" :=
  (convert_oneof_renders_each_variant_once "U"
      (.mk none none [.primitive (.boolean ⟨none, none⟩)])).2.2.1 _
    (List.get_mem _ 0 (by decide))

/-! ### RPC-name idempotence (C8) -/

theorem toUpper_toNat_of_lower (c : Char) (h1 : 97 ≤ c.toNat) (h2 : c.toNat ≤ 122) :
    (Char.toUpper c).toNat = c.toNat - 32 := by
  have hv : (c.toNat - 32).isValidChar := Or.inl (by omega)
  have hup : Char.toUpper c = Char.ofNatAux (c.toNat - 32) hv := by
    unfold Char.toUpper Char.ofNat
    rw [if_pos ⟨h1, h2⟩, dif_pos hv]
  rw [hup]
  rfl

theorem toUpper_eq_self_of_not_lower (c : Char)
    (h : ¬(97 ≤ c.toNat ∧ c.toNat ≤ 122)) : Char.toUpper c = c := by
  unfold Char.toUpper
  rw [if_neg h]

theorem toUpper_idem (c : Char) : Char.toUpper (Char.toUpper c) = Char.toUpper c := by
  by_cases hl : 97 ≤ c.toNat ∧ c.toNat ≤ 122
  · have h1 := toUpper_toNat_of_lower c hl.1 hl.2
    exact toUpper_eq_self_of_not_lower _ (by omega)
  · rw [toUpper_eq_self_of_not_lower c hl]
    exact toUpper_eq_self_of_not_lower c hl

theorem toUpper_ne_underscore (c : Char) (h : c ≠ '_') : Char.toUpper c ≠ '_' := by
  by_cases hl : 97 ≤ c.toNat ∧ c.toNat ≤ 122
  · intro heq
    have h1 := toUpper_toNat_of_lower c hl.1 hl.2
    rw [heq] at h1
    have h95 : ('_' : Char).toNat = 95 := rfl
    omega
  · rw [toUpper_eq_self_of_not_lower c hl]
    exact h

theorem toLower_ne_underscore (c : Char) (h : c ≠ '_') : Char.toLower c ≠ '_' := by
  unfold Char.toLower
  by_cases hu : 65 ≤ c.toNat ∧ c.toNat ≤ 90
  · rw [if_pos hu]
    intro heq
    have hv : (c.toNat + 32).isValidChar := Or.inl (by omega)
    have h1 : (Char.ofNat (c.toNat + 32)).toNat = c.toNat + 32 := by
      unfold Char.ofNat
      rw [dif_pos hv]
      rfl
    rw [heq] at h1
    have h95 : ('_' : Char).toNat = 95 := rfl
    omega
  · rw [if_neg hu]
    exact h

theorem split_on_char_ne_nil (sep : Char) : ∀ l, split_on_char sep l ≠ [] := by
  intro l
  cases l with
  | nil => simp [split_on_char]
  | cons c cs =>
    simp only [split_on_char]
    cases split_on_char sep cs with
    | nil => simp
    | cons w ws =>
      by_cases h : c = sep <;> simp [h]

theorem split_on_char_not_mem (sep : Char) :
    ∀ l w, w ∈ split_on_char sep l → sep ∉ w := by
  intro l
  induction l with
  | nil =>
    intro w hw
    simp only [split_on_char, List.mem_singleton] at hw
    simp [hw]
  | cons c cs ih =>
    intro w hw
    cases hr : split_on_char sep cs with
    | nil => exact absurd hr (split_on_char_ne_nil sep cs)
    | cons w0 ws =>
      simp only [split_on_char, hr] at hw
      by_cases hc : c = sep
      · rw [if_pos hc] at hw
        rcases List.mem_cons.mp hw with heq | h
        · simp [heq]
        · exact ih w (hr ▸ h)
      · rw [if_neg hc] at hw
        rcases List.mem_cons.mp hw with heq | h
        · intro hmem
          rw [heq] at hmem
          rcases List.mem_cons.mp hmem with heq2 | h2
          · exact hc heq2.symm
          · exact ih w0 (hr ▸ List.mem_cons_self w0 ws) h2
        · exact ih w (hr ▸ List.mem_cons_of_mem w0 h)

theorem capitalize_word_not_underscore (w : List Char) (h : '_' ∉ w) :
    '_' ∉ capitalize_word w := by
  cases w with
  | nil => simp [capitalize_word]
  | cons c rest =>
    simp only [capitalize_word, List.mem_cons, List.mem_map, not_or]
    constructor
    · intro heq
      exact toUpper_ne_underscore c (fun hc => h (by simp [hc])) heq.symm
    · rintro ⟨x, hx, hlx⟩
      exact toLower_ne_underscore x
        (fun hc => h (by simp [hc ▸ hx])) hlx

theorem flatten_capitalize_not_underscore (ws : List (List Char))
    (h : ∀ w ∈ ws, '_' ∉ w) : '_' ∉ (ws.map capitalize_word).flatten := by
  intro hmem
  rw [List.mem_flatten] at hmem
  obtain ⟨l, hl, hmem2⟩ := hmem
  rw [List.mem_map] at hl
  obtain ⟨w, hw, rfl⟩ := hl
  exact capitalize_word_not_underscore w (h w hw) hmem2

theorem snake_to_pascal_chars_not_underscore (l : List Char) :
    '_' ∉ Service.snake_to_pascal_chars l := by
  unfold Service.snake_to_pascal_chars
  exact flatten_capitalize_not_underscore _ (fun w hw => split_on_char_not_mem '_' l w hw)

theorem mem_of_isPrefixOf :
    ∀ {l1 l2 : List Char}, l1.isPrefixOf l2 = true → ∀ a ∈ l1, a ∈ l2 := by
  intro l1
  induction l1 with
  | nil => intro l2 _ a ha; exact absurd ha (by simp)
  | cons b bs ih =>
    intro l2 h a ha
    cases l2 with
    | nil => exact absurd h (by simp [List.isPrefixOf])
    | cons c cs =>
      simp only [List.isPrefixOf, Bool.and_eq_true, beq_iff_eq] at h
      rcases List.mem_cons.mp ha with heq | hmem
      · rw [heq, h.1]
        exact List.mem_cons_self c cs
      · exact List.mem_cons_of_mem c (ih h.2 a hmem)

theorem rpc_name_chars_not_underscore (l : List Char) :
    '_' ∉ Service.method_name_to_rpc_name_chars l := by
  unfold Service.method_name_to_rpc_name_chars
  set s := if ("starknet_".data).isPrefixOf l then l.drop 9 else l with hs
  by_cases hc : s.contains '_'
  · rw [if_pos hc]
    exact snake_to_pascal_chars_not_underscore s
  · rw [if_neg hc]
    have hnm : '_' ∉ s := by
      intro hmem
      exact hc (by simp [hmem])
    cases hseq : s with
    | nil => simp
    | cons c rest =>
      rw [hseq] at hnm
      simp only [List.mem_cons, not_or]
      refine ⟨?_, fun h => hnm (by simp [h])⟩
      intro heq
      exact toUpper_ne_underscore c (fun h => hnm (by simp [h])) heq.symm

theorem flatten_capitalize_head (ws : List (List Char)) :
    (ws.map capitalize_word).flatten = [] ∨
    ∃ c rest, (ws.map capitalize_word).flatten = Char.toUpper c :: rest := by
  induction ws with
  | nil => exact Or.inl rfl
  | cons w ws' ih =>
    cases w with
    | nil =>
      simp only [List.map_cons, capitalize_word, List.flatten_cons, List.nil_append]
      exact ih
    | cons c r =>
      refine Or.inr ⟨c, r.map Char.toLower ++ (ws'.map capitalize_word).flatten, ?_⟩
      simp only [List.map_cons, capitalize_word, List.flatten_cons, List.cons_append]

theorem rpc_name_chars_head (l : List Char) :
    Service.method_name_to_rpc_name_chars l = [] ∨
    ∃ c rest, Service.method_name_to_rpc_name_chars l = Char.toUpper c :: rest := by
  unfold Service.method_name_to_rpc_name_chars
  set s := if ("starknet_".data).isPrefixOf l then l.drop 9 else l with hs
  by_cases hc : s.contains '_'
  · rw [if_pos hc]
    exact flatten_capitalize_head _
  · rw [if_neg hc]
    cases s with
    | nil => exact Or.inl rfl
    | cons c rest => exact Or.inr ⟨c, rest, rfl⟩

theorem rpc_name_chars_idempotent (l : List Char) :
    Service.method_name_to_rpc_name_chars (Service.method_name_to_rpc_name_chars l) =
      Service.method_name_to_rpc_name_chars l := by
  set out := Service.method_name_to_rpc_name_chars l with hout
  have hnos : '_' ∉ out := rpc_name_chars_not_underscore l
  have hpre : ("starknet_".data).isPrefixOf out = false := by
    cases hp : ("starknet_".data).isPrefixOf out
    · rfl
    · exact absurd (mem_of_isPrefixOf hp '_' (by decide)) (fun h => hnos h)
  have hcon : out.contains '_' = false := by
    cases hcc : out.contains '_'
    · rfl
    · exact absurd (by simpa using hcc) hnos
  rw [Service.method_name_to_rpc_name_chars, hpre]
  simp only [Bool.false_eq_true, if_false]
  rw [hcon]
  simp only [Bool.false_eq_true, if_false]
  rcases rpc_name_chars_head l with hnil | ⟨c, rest, hcons⟩
  · rw [hout.trans hnil]
  · rw [hout.trans hcons]
    simp [toUpper_idem]

/-- C8: the method-name → RPC-name conversion is idempotent: applied to its
own output it returns the output unchanged (the output never contains `_`,
so the `starknet_` prefix strip is a no-op and the camelCase branch merely
re-upper-cases an already upper-cased first character). -/
theorem method_name_to_rpc_name_idempotent (method_name : String) :
    Service.method_name_to_rpc_name (Service.method_name_to_rpc_name method_name) =
      Service.method_name_to_rpc_name method_name :=
  congrArg String.mk (rpc_name_chars_idempotent method_name.data)

/-! ### Type-resolution determinism (C9) -/

/-- C9 counterexample: the ordering of `common_types` is the iteration order
of the resolver's `std::collections::HashMap`, which is unspecified in Rust
(per-instance random state) and is therefore an input of the model.  For a
two-schema table, the two valid iteration orders `["A", "B"]` and
`["B", "A"]` (a permutation of one another, and of the resolved keys) yield
`TypeResolution`s whose `common_types` lists differ — so two runs of type
resolution on the same table need not produce identical output. -/
theorem resolve_types_order_dependent :
    (["A", "B"] : List String).Perm ["B", "A"] ∧
    (Types.resolve_types
        ⟨"1.0", ⟨"v", "t"⟩, [], [],
          ⟨[("A", .primitive (.object (.mk none none none [] [] none none))),
            ("B", .primitive (.object (.mk none none none [] [] none none)))], []⟩⟩
        ["A", "B"] []).common_types ≠
      (Types.resolve_types
        ⟨"1.0", ⟨"v", "t"⟩, [], [],
          ⟨[("A", .primitive (.object (.mk none none none [] [] none none))),
            ("B", .primitive (.object (.mk none none none [] [] none none)))], []⟩⟩
        ["B", "A"] []).common_types := by
  constructor
  · decide
  · decide

/-- C9 (amended): type resolution is deterministic up to the unspecified
`HashMap` iteration order: for any schema table, two runs whose iteration
orders are permutations of one another produce `common_types`/`common_enums`
lists that are permutations of one another, and two runs with *equal*
iteration orders produce identical `TypeResolution` values. -/
theorem resolve_types_deterministic_up_to_order (specs : Specification)
    (o1 o2 e1 e2 : List String) (ho : o1.Perm o2) (he : e1.Perm e2) :
    (Types.resolve_types specs o1 e1).common_types.Perm
      (Types.resolve_types specs o2 e2).common_types ∧
    (Types.resolve_types specs o1 e1).common_enums.Perm
      (Types.resolve_types specs o2 e2).common_enums ∧
    (o1 = o2 → e1 = e2 → Types.resolve_types specs o1 e1 = Types.resolve_types specs o2 e2) := by
  refine ⟨ho.filterMap _, he.filterMap _, ?_⟩
  intro h1 h2
  rw [h1, h2]

/-- Witness for the amended C9 at a concrete two-schema table and a concrete
pair of iteration orders. -/
theorem resolve_types_deterministic_up_to_order_witness :
    (Types.resolve_types
        ⟨"1.0", ⟨"v", "t"⟩, [], [],
          ⟨[("A", .primitive (.object (.mk none none none [] [] none none))),
            ("B", .primitive (.object (.mk none none none [] [] none none)))], []⟩⟩
        ["A", "B"] []).common_types.Perm
      (Types.resolve_types
        ⟨"1.0", ⟨"v", "t"⟩, [], [],
          ⟨[("A", .primitive (.object (.mk none none none [] [] none none))),
            ("B", .primitive (.object (.mk none none none [] [] none none)))], []⟩⟩
        ["B", "A"] []).common_types :=
  (resolve_types_deterministic_up_to_order
      ⟨"1.0", ⟨"v", "t"⟩, [], [],
        ⟨[("A", .primitive (.object (.mk none none none [] [] none none))),
          ("B", .primitive (.object (.mk none none none [] [] none none)))], []⟩⟩
      ["A", "B"] ["B", "A"] [] [] (by decide) (by decide)).1

end Codegen
